import Mathlib

set_option maxRecDepth 8000

/-!
Verification development for the GO-M8010-6 actuator driver repository.

The repository ships one C++ caller (example/scan_motor_ids.cpp) together
with the documentation of a Python driver (README files).  The driver
implementation itself (fixed-point codec, CRC engine, motor table, packet
codec, serial session) is not part of the shipped sources, so those
components are modelled here from the specification and the README data;
the scan example is embedded from its C++ source.

Conventions: machine integers are Nat or Int with explicit reductions
modulo powers of two; physical quantities are rationals; a stateful
exchange is embedded as explicit state passing, and the side effects of
the serial loop are recorded as an explicit event trace.
-/

/-- Modelled from the spec: the fixed-point encoder of the codec (the
codec source is missing from the repository).  Encode computes
round(value * scale) and then saturates into the representable integer
range lo..hi of the target field. -/
def encodeFixed (scale lo hi : ℤ) (x : ℚ) : ℤ :=
  max lo (min hi (round (x * (scale : ℚ))))

/-- Modelled from the spec: the fixed-point decoder, stored integer
divided by the scale. -/
def decodeFixed (scale : ℤ) (n : ℤ) : ℚ :=
  (n : ℚ) / (scale : ℚ)

/-- CRC-CCITT generator polynomial 0x1021 as a natural number. -/
def crcPoly : Nat := 4129

/-- Modelled from the spec: one shift-register step of the bitwise
CRC-CCITT computation (the CRC engine source is missing from the
repository).  The 16-bit state is a Nat kept below 2^16; the feedback
bit is the top state bit xored with the incoming message bit. -/
def crcStepBit (s : Nat) (b : Bool) : Nat :=
  (2 * (s % 2 ^ 15)) ^^^ (if (s.testBit 15 != b) then crcPoly else 0)

/-- Run the CRC shift register from state s over a list of message bits. -/
def crcRun (s : Nat) (bs : List Bool) : Nat :=
  bs.foldl crcStepBit s

/-- The eight bits of one byte, most significant first. -/
def byteBits (n : Nat) : List Bool :=
  [n.testBit 7, n.testBit 6, n.testBit 5, n.testBit 4,
   n.testBit 3, n.testBit 2, n.testBit 1, n.testBit 0]

/-- The bit stream of a byte sequence, each byte most significant bit
first. -/
def bytesBits (l : List Nat) : List Bool :=
  (l.map byteBits).flatten

/-- Modelled from the spec: the 16-bit CRC-CCITT checksum of a byte
sequence, initial state zero. -/
def crc16 (bytes : List Nat) : Nat :=
  crcRun 0 (bytesBits bytes)

/-- The two trailing checksum bytes of a frame, low byte first. -/
def crcBytes (c : Nat) : List Nat :=
  [c % 256, c / 256 % 256]

/-- The supported actuator family (closed enumeration, one model). -/
inductive MotorType where
  | GO_M8010_6
deriving DecidableEq

/-- The logical control modes of the driver: 0 locked / brake, 1
closed-loop FOC, 2 encoder calibration. -/
inductive MotorMode where
  | BRAKE
  | FOC
  | CALIBRATE
deriving DecidableEq

/-- Modelled from the spec: the constant family/mode lookup table of the
Motor Table component (its source is missing from the repository). -/
def motorModeTable : MotorType → MotorMode → Option Nat
  | .GO_M8010_6, .BRAKE => some 0
  | .GO_M8010_6, .FOC => some 1
  | .GO_M8010_6, .CALIBRATE => some 2

/-- Modelled from the spec: the mode-code query; it reports an
unsupported-combination error when the family does not define the mode,
and never substitutes a default mode. -/
def queryMotorMode (t : MotorType) (m : MotorMode) : Except String Nat :=
  match motorModeTable t m with
  | some c => Except.ok c
  | none => Except.error "unsupported mode for this motor family"

/-- Modelled from the spec: the gear-ratio query of the Motor Table,
6.0 for the GO-M8010-6 family. -/
def queryGearRatioOf : MotorType → ℚ
  | .GO_M8010_6 => 6

/-- The command value sent to one actuator (fields as in the driver
documentation: family, bus id, numeric mode code, desired position,
velocity, torque, position gain, velocity gain). -/
structure MotorCmd where
  motorType : MotorType
  id : Nat
  mode : Nat
  q : ℚ
  dq : ℚ
  tau : ℚ
  kp : ℚ
  kd : ℚ
deriving DecidableEq

/-- The feedback value read back from one actuator (fields as in the
driver documentation, with the validity flag named correct). -/
structure MotorData where
  motorType : MotorType
  motor_id : Nat
  mode : Nat
  temp : Int
  merror : Nat
  q : ℚ
  dq : ℚ
  tau : ℚ
  foot_force : Nat
  correct : Bool
deriving DecidableEq

/-- The all-zero, not-populated feedback value with validity false. -/
def zeroData : MotorData :=
  ⟨.GO_M8010_6, 0, 0, 0, 0, 0, 0, 0, 0, false⟩

/-- Two bytes of an unsigned 16-bit value, low byte first. -/
def toU16 (n : Nat) : List Nat :=
  [n % 256, n / 256 % 256]

/-- Recombine two bytes into an unsigned 16-bit value. -/
def fromU16 (lo hi : Nat) : Nat :=
  lo % 256 + 256 * (hi % 256)

/-- Two bytes of a signed 16-bit value in two-complement form, low byte
first. -/
def i16Bytes (n : ℤ) : List Nat :=
  toU16 (n % 65536).toNat

/-- Read an unsigned 16-bit value as a signed 16-bit value. -/
def asI16 (v : Nat) : ℤ :=
  if v % 65536 < 32768 then ((v % 65536 : Nat) : ℤ) else ((v % 65536 : Nat) : ℤ) - 65536

/-- Modelled from the spec: a q8 signed 16-bit field encoder. -/
def encQ8I16 (x : ℚ) : List Nat :=
  i16Bytes (encodeFixed 256 (-32768) 32767 x)

/-- Modelled from the spec: a q15 unsigned 16-bit field encoder for the
0.0..1.0 gain fields. -/
def encQ15U16 (x : ℚ) : List Nat :=
  toU16 (encodeFixed 32768 0 65535 x).toNat

/-- Modelled from the spec: the two magic header bytes of a command
frame (the exact byte values are a vendor protocol constant; the layout
facts proved below do not depend on the chosen values). -/
def cmdHeader : List Nat := [254, 238]

/-- Modelled from the spec: the two magic header bytes of a feedback
frame. -/
def fbHeader : List Nat := [253, 238]

/-- Modelled from the spec: the 12-byte command payload carrying the
address, the two gains and the desired position, velocity and torque in
fixed-point form; the exact field order inside the payload is a vendor
protocol constant fixed here once. -/
def cmdPayload (c : MotorCmd) : List Nat :=
  [c.id % 256] ++ encQ15U16 c.kp ++ encQ15U16 c.kd ++
    encQ8I16 c.q ++ encQ8I16 c.dq ++ encQ8I16 c.tau ++ [0]

/-- Modelled from the spec: the full 17-byte command frame, two header
bytes, one mode byte, twelve payload bytes and the two CRC bytes of the
checksum computed over the preceding fifteen bytes. -/
def packCmd (c : MotorCmd) : List Nat :=
  cmdHeader ++ [c.mode % 256] ++ cmdPayload c ++
    crcBytes (crc16 (cmdHeader ++ [c.mode % 256] ++ cmdPayload c))

/-- Modelled from the spec: the 11-byte feedback payload carrying the
reporting address, temperature, fault code, measured position, velocity
and torque and the foot-pressure sample. -/
def fbPayload (d : MotorData) : List Nat :=
  [d.motor_id % 256] ++ [(d.temp % 256).toNat] ++ [d.merror % 256] ++
    encQ8I16 d.q ++ encQ8I16 d.dq ++ encQ8I16 d.tau ++ toU16 (d.foot_force % 4096)

/-- Modelled from the spec: the full 16-byte feedback frame a device
produces, two header bytes, one mode byte, eleven payload bytes and the
two CRC bytes of the checksum computed over the preceding fourteen
bytes. -/
def packFb (d : MotorData) : List Nat :=
  fbHeader ++ [d.mode % 256] ++ fbPayload d ++
    crcBytes (crc16 (fbHeader ++ [d.mode % 256] ++ fbPayload d))

/-- Modelled from the spec: the structural validity test of a received
feedback buffer: fixed length, magic header, and trailing checksum bytes
equal to the checksum recomputed over the first fourteen bytes. -/
def fbChecksOk (buf : List Nat) : Bool :=
  buf.length == 16 && buf.take 2 == fbHeader &&
    buf.drop 14 == crcBytes (crc16 (buf.take 14))

/-- Modelled from the spec: feedback decoding.  On a failed header or
checksum test it produces the not-populated feedback with validity
false; otherwise it fills every field from the payload and sets validity
true. -/
def unpackFb (buf : List Nat) : MotorData :=
  if fbChecksOk buf then
    ⟨.GO_M8010_6, buf.getD 3 0, buf.getD 2 0,
      (buf.getD 4 0 : Int), buf.getD 5 0,
      decodeFixed 256 (asI16 (fromU16 (buf.getD 6 0) (buf.getD 7 0))),
      decodeFixed 256 (asI16 (fromU16 (buf.getD 8 0) (buf.getD 9 0))),
      decodeFixed 256 (asI16 (fromU16 (buf.getD 10 0) (buf.getD 11 0))),
      fromU16 (buf.getD 12 0) (buf.getD 13 0), true⟩
  else zeroData

/-- The reserved broadcast bus address. -/
def broadcastId : Nat := 15

/-- One byte-level operation of the serial transport, as recorded by the
session trace. -/
inductive TransportOp where
  | send (frame : List Nat)
  | recv (n : Nat)
deriving DecidableEq

/-- Modelled from the spec: the transport operations one transaction
performs: send the command frame, then, except for the broadcast
address, receive exactly sixteen bytes. -/
def sendRecvOps (c : MotorCmd) : List TransportOp :=
  if c.id = broadcastId then [TransportOp.send (packCmd c)]
  else [TransportOp.send (packCmd c), TransportOp.recv 16]

/-- Modelled from the spec: the result of one transaction, threading the
caller-held feedback record prev explicitly (the documented send_recv
writes the caller object in place).  resp is what the transport
delivered: none for a timeout, some buf for a delivered buffer.  A
broadcast returns success true without consulting resp; a timeout or a
short buffer returns success false and leaves prev untouched; a full
sixteen-byte buffer is decoded and returns success true. -/
def sendRecvResult (resp : Option (List Nat)) (c : MotorCmd) (prev : MotorData) :
    Bool × MotorData :=
  if c.id = broadcastId then (true, prev)
  else
    match resp with
    | none => (false, prev)
    | some buf => if buf.length = 16 then (true, unpackFb buf) else (false, prev)

/-- The probe command the scan example builds for one candidate id
(scan_motor_ids.cpp lines 15-26): FOC mode, kp 0, kd 0.01, q 0, dq 0,
tau 0. -/
def probeCmd (id : Nat) : MotorCmd :=
  ⟨.GO_M8010_6, id, (queryMotorMode .GO_M8010_6 .FOC).toOption.getD 0,
    0, 0, 0, 0, 1 / 100⟩

/-- One observable event of the scan loop: a probe of one id with its
success flag, or a fixed delay in microseconds. -/
inductive ScanEvent where
  | probe (id : Nat) (success : Bool)
  | wait (usec : Nat)
deriving DecidableEq

/-- The id probed by a scan event, when it is a probe. -/
def probeIdOf : ScanEvent → Option Nat
  | .probe id _ => some id
  | .wait _ => none

/-- The event trace of the scan loop of scan_motor_ids.cpp (lines
14-42): for each id from 0 to 15 one transaction on the probe command,
then a 50000 microsecond sleep; t abstracts serial.sendRecv. -/
def scanTrace (t : MotorCmd → Bool × MotorData) : List ScanEvent :=
  (List.range 16).flatMap
    (fun id => [ScanEvent.probe id (t (probeCmd id)).1, ScanEvent.wait 50000])

/-- The ids the scan example reports as discovered motors: exactly those
whose transaction returned success true (scan_motor_ids.cpp line 31
tests only the success flag). -/
def scanFound (t : MotorCmd → Bool × MotorData) : List Nat :=
  (List.range 16).filter (fun id => (t (probeCmd id)).1)

/-- Whether a scan event is the fixed 50000 microsecond inter-probe
delay. -/
def isWait50 : ScanEvent → Bool
  | .wait 50000 => true
  | _ => false

/-- Whether a transport operation is a receive. -/
def isRecvOp : TransportOp → Bool
  | .recv _ => true
  | .send _ => false

/-- A populated feedback record standing for the values a previous
successful control cycle left behind. -/
def prevData : MotorData :=
  ⟨.GO_M8010_6, 3, 1, 30, 0, 5 / 2, 1, 1 / 2, 100, true⟩

lemma scanTrace_filterMap_probeIdOf (f : Nat → Bool) (l : List Nat) :
    (l.flatMap
      (fun id => [ScanEvent.probe id (f id), ScanEvent.wait 50000])).filterMap
        probeIdOf = l := by
  induction l with
  | nil => rfl
  | cons a l ih =>
    simp only [List.flatMap_cons, List.filterMap_append, ih]
    rfl

lemma scanTrace_wait_count (f : Nat → Bool) (l : List Nat) :
    (l.flatMap
      (fun id => [ScanEvent.probe id (f id), ScanEvent.wait 50000])).countP
        isWait50 = l.length := by
  induction l with
  | nil => rfl
  | cons a l ih =>
    simp only [List.flatMap_cons, List.countP_append, ih, List.length_cons]
    have h1 : List.countP isWait50 [ScanEvent.probe a (f a), ScanEvent.wait 50000] = 1 := rfl
    rw [h1]
    omega

/-- C1 counterexample: with the concrete transact oracle that answers
every probe with success true and an invalid (validity false) feedback,
the shipped scan probes the addresses 0..15 rather than exactly 0..14,
and the set it records as responsive is not the set the claim predicts
(success and validity over 0..14, which here is empty). -/
theorem C1_scan_claim_fails :
    (scanTrace (fun _ => (true, zeroData))).filterMap probeIdOf ≠ List.range 15
  ∧ scanFound (fun _ => (true, zeroData)) ≠
      (List.range 15).filter (fun _ => zeroData.correct)
  ∧ zeroData.correct = false := by
  exact ⟨by decide, by decide, rfl⟩

/-- C1 amended: the scan of scan_motor_ids.cpp probes each address 0..15
exactly once in order, with one fixed 50000 microsecond delay per probe
and no retries, using the probe command with FOC mode, kp 0, kd 0.01 and
zero position, velocity and torque, and it records an address as
responsive exactly when the transaction returned success true, without
consulting the feedback validity flag. -/
theorem C1_scan_behavior (t : MotorCmd → Bool × MotorData) (id : Nat) :
    (id ∈ scanFound t ↔ id < 16 ∧ (t (probeCmd id)).1 = true)
  ∧ (scanTrace t).filterMap probeIdOf = List.range 16
  ∧ (scanTrace t).countP isWait50 = 16
  ∧ (probeCmd id).mode = 1 ∧ (probeCmd id).kp = 0 ∧ (probeCmd id).kd = 1 / 100
  ∧ (probeCmd id).q = 0 ∧ (probeCmd id).dq = 0 ∧ (probeCmd id).tau = 0 := by
  refine ⟨?_, ?_, ?_, rfl, rfl, rfl, rfl, rfl, rfl⟩
  · simp [scanFound, List.mem_filter, List.mem_range]
  · exact scanTrace_filterMap_probeIdOf (fun id => (t (probeCmd id)).1) (List.range 16)
  · exact scanTrace_wait_count (fun id => (t (probeCmd id)).1) (List.range 16)

/-- C2: a transaction addressed to the broadcast address 15 returns
success true with the feedback record untouched, performs a single send
and no receive operation, so it never waits for a response and never
decodes a feedback frame. -/
theorem C2_broadcast_transact (c : MotorCmd) (h : c.id = 15)
    (resp : Option (List Nat)) (prev : MotorData) :
    sendRecvResult resp c prev = (true, prev)
  ∧ sendRecvOps c = [TransportOp.send (packCmd c)]
  ∧ (sendRecvOps c).countP isRecvOp = 0 := by
  refine ⟨?_, ?_, ?_⟩
  · simp [sendRecvResult, h, broadcastId]
  · simp [sendRecvOps, h, broadcastId]
  · simp [sendRecvOps, h, broadcastId, isRecvOp]

/-- C2 witness: the broadcast probe command at address 15 with a timed
out transport still reports success and leaves the feedback record
untouched. -/
theorem C2_broadcast_witness :
    sendRecvResult none (probeCmd 15) zeroData = (true, zeroData) :=
  (C2_broadcast_transact (probeCmd 15) rfl none zeroData).1

/-- C7: the motor table lookups are constant functions: for the
GO-M8010-6 family the mode codes are 0 (locked), 1 (closed-loop FOC) and
2 (encoder calibration), the gear ratio is 6.0, and the mode query
reports an unsupported-combination error exactly for the pairs the table
does not define (never substituting a default code). -/
theorem C7_motor_table :
    queryMotorMode MotorType.GO_M8010_6 MotorMode.BRAKE = Except.ok 0
  ∧ queryMotorMode MotorType.GO_M8010_6 MotorMode.FOC = Except.ok 1
  ∧ queryMotorMode MotorType.GO_M8010_6 MotorMode.CALIBRATE = Except.ok 2
  ∧ queryGearRatioOf MotorType.GO_M8010_6 = 6
  ∧ ∀ t m, (queryMotorMode t m).isOk = (motorModeTable t m).isSome
  ∧ ∀ c, (queryMotorMode t m = Except.ok c ↔ motorModeTable t m = some c) := by
  refine ⟨rfl, rfl, rfl, rfl, ?_⟩
  intro t m
  cases t
  cases m <;> simp [queryMotorMode, motorModeTable, Except.isOk, Except.toBool]

/-- C9: in the state-passing embedding of the documented in-place
send_recv, a non-broadcast exchange that fails (timeout or short read)
returns the caller-held feedback record unchanged, so a reused feedback
object keeps the values of the previous cycle after a failed exchange. -/
theorem C9_failed_exchange_keeps_prev (resp : Option (List Nat)) (c : MotorCmd)
    (prev : MotorData) (hid : c.id ≠ broadcastId)
    (hfail : (sendRecvResult resp c prev).1 = false) :
    (sendRecvResult resp c prev).2 = prev := by
  cases resp with
  | none => simp [sendRecvResult, hid]
  | some buf =>
    by_cases hlen : buf.length = 16
    · exfalso
      simp [sendRecvResult, hid, hlen] at hfail
    · simp [sendRecvResult, hid, hlen]

/-- C9 witness: a timed out exchange at address 0 leaves a populated
previous feedback record exactly as it was. -/
theorem C9_failed_exchange_witness :
    (sendRecvResult none (probeCmd 0) prevData).2 = prevData :=
  C9_failed_exchange_keeps_prev none (probeCmd 0) prevData (by decide) rfl

lemma round_ge_of_le {z : ℤ} {a : ℚ} (h : (z : ℚ) ≤ a) : z ≤ round a := by
  rw [round_eq]
  apply Int.le_floor.mpr
  linarith

lemma round_le_of_ge {z : ℤ} {a : ℚ} (h : a ≤ (z : ℚ)) : round a ≤ z := by
  rw [round_eq]
  have h2 : (⌊a + 1 / 2⌋ : ℤ) < z + 1 := by
    apply Int.floor_lt.mpr
    push_cast
    linarith
  omega

lemma fixed_roundtrip (s lo hi : ℤ) (hs : 0 < s) (x : ℚ)
    (h1 : (lo : ℚ) ≤ x * (s : ℚ)) (h2 : x * (s : ℚ) ≤ (hi : ℚ)) :
    |decodeFixed s (encodeFixed s lo hi x) - x| ≤ 1 / (2 * (s : ℚ)) := by
  have hsq : (0 : ℚ) < (s : ℚ) := by exact_mod_cast hs
  have hlo : lo ≤ round (x * (s : ℚ)) := round_ge_of_le h1
  have hhi : round (x * (s : ℚ)) ≤ hi := round_le_of_ge h2
  have henc : encodeFixed s lo hi x = round (x * (s : ℚ)) := by
    rw [encodeFixed, min_eq_right hhi, max_eq_right hlo]
  rw [henc, decodeFixed]
  have hdiff : ((round (x * (s : ℚ)) : ℤ) : ℚ) / (s : ℚ) - x =
      (((round (x * (s : ℚ)) : ℤ) : ℚ) - x * (s : ℚ)) / (s : ℚ) := by
    field_simp
    ring
  rw [hdiff, abs_div, abs_of_pos hsq]
  have habs : |((round (x * (s : ℚ)) : ℤ) : ℚ) - x * (s : ℚ)| ≤ 1 / 2 := by
    rw [abs_sub_comm]
    exact abs_sub_round (x * (s : ℚ))
  calc |((round (x * (s : ℚ)) : ℤ) : ℚ) - x * (s : ℚ)| / (s : ℚ)
      ≤ (1 / 2) / (s : ℚ) := by
        exact div_le_div_of_nonneg_right habs hsq.le
    _ = 1 / (2 * (s : ℚ)) := by
        field_simp

/-- C4: for every value inside the representable range lo..hi of the
field, decoding the encoding differs from the value by at most half a
quantization step: 1/512 for q8 (scale 256), 1/256 for q7 (scale 128)
and 1/65536 for q15 (scale 32768). -/
theorem C4_fixed_point_roundtrip :
    (∀ (lo hi : ℤ) (x : ℚ), (lo : ℚ) ≤ x * 256 → x * 256 ≤ (hi : ℚ) →
      |decodeFixed 256 (encodeFixed 256 lo hi x) - x| ≤ 1 / 512)
  ∧ (∀ (lo hi : ℤ) (x : ℚ), (lo : ℚ) ≤ x * 128 → x * 128 ≤ (hi : ℚ) →
      |decodeFixed 128 (encodeFixed 128 lo hi x) - x| ≤ 1 / 256)
  ∧ (∀ (lo hi : ℤ) (x : ℚ), (lo : ℚ) ≤ x * 32768 → x * 32768 ≤ (hi : ℚ) →
      |decodeFixed 32768 (encodeFixed 32768 lo hi x) - x| ≤ 1 / 65536) := by
  refine ⟨?_, ?_, ?_⟩ <;>
  · intro lo hi x h1 h2
    refine (fixed_roundtrip _ lo hi (by norm_num) x ?_ ?_).trans ?_
    · push_cast
      linarith
    · push_cast
      linarith
    · push_cast
      norm_num

/-- C4 witness: the q8 round trip at one third, inside a signed 16-bit
range, is within 1/512. -/
theorem C4_fixed_point_roundtrip_witness :
    |decodeFixed 256 (encodeFixed 256 (-32768) 32767 (1 / 3)) - 1 / 3| ≤ 1 / 512 :=
  C4_fixed_point_roundtrip.1 (-32768) 32767 (1 / 3) (by norm_num) (by norm_num)

/-- C5: the command frame is exactly 17 bytes, two header bytes, one
mode byte at offset 2, a 12-byte payload, and two trailing CRC bytes
equal to the checksum recomputed over the first fifteen bytes; the
feedback frame is exactly 16 bytes, two header bytes, one mode byte, an
11-byte payload and two trailing CRC bytes equal to the checksum
recomputed over the first fourteen bytes. -/
theorem C5_frame_layout (c : MotorCmd) (d : MotorData) :
    (packCmd c).length = 17
  ∧ (packCmd c).take 2 = cmdHeader
  ∧ (packCmd c).getD 2 0 = c.mode % 256
  ∧ (cmdPayload c).length = 12
  ∧ (packCmd c).drop 15 = crcBytes (crc16 ((packCmd c).take 15))
  ∧ (crcBytes (crc16 ((packCmd c).take 15))).length = 2
  ∧ (packFb d).length = 16
  ∧ (packFb d).take 2 = fbHeader
  ∧ (packFb d).getD 2 0 = d.mode % 256
  ∧ (fbPayload d).length = 11
  ∧ (packFb d).drop 14 = crcBytes (crc16 ((packFb d).take 14))
  ∧ (crcBytes (crc16 ((packFb d).take 14))).length = 2 := by
  have hcb : (cmdHeader ++ [c.mode % 256] ++ cmdPayload c).length = 15 := rfl
  have hfb : (fbHeader ++ [d.mode % 256] ++ fbPayload d).length = 14 := rfl
  have hca : packCmd c = (cmdHeader ++ [c.mode % 256] ++ cmdPayload c) ++
      crcBytes (crc16 (cmdHeader ++ [c.mode % 256] ++ cmdPayload c)) := by
    rw [packCmd]
  have hfa : packFb d = (fbHeader ++ [d.mode % 256] ++ fbPayload d) ++
      crcBytes (crc16 (fbHeader ++ [d.mode % 256] ++ fbPayload d)) := by
    rw [packFb]
  have hctake : (packCmd c).take 15 = cmdHeader ++ [c.mode % 256] ++ cmdPayload c := by
    rw [hca]
    exact List.take_left' hcb
  have hftake : (packFb d).take 14 = fbHeader ++ [d.mode % 256] ++ fbPayload d := by
    rw [hfa]
    exact List.take_left' hfb
  refine ⟨rfl, rfl, rfl, rfl, ?_, rfl, rfl, rfl, rfl, rfl, ?_, rfl⟩
  · rw [hctake, hca]
    exact List.drop_left' hcb
  · rw [hftake, hfa]
    exact List.drop_left' hfb

/-- C6: fixed-point encoding is total and deterministic, its result
always lies in the representable range lo..hi, any value at or beyond a
range boundary is clamped exactly to that boundary, and a rounded value
inside the range is kept unchanged. -/
theorem C6_encode_saturates (s lo hi : ℤ) (x : ℚ) (hlohi : lo ≤ hi) :
    lo ≤ encodeFixed s lo hi x
  ∧ encodeFixed s lo hi x ≤ hi
  ∧ ((hi : ℚ) ≤ x * (s : ℚ) → encodeFixed s lo hi x = hi)
  ∧ (x * (s : ℚ) ≤ (lo : ℚ) → encodeFixed s lo hi x = lo)
  ∧ (lo ≤ round (x * (s : ℚ)) → round (x * (s : ℚ)) ≤ hi →
      encodeFixed s lo hi x = round (x * (s : ℚ))) := by
  refine ⟨le_max_left lo _, max_le hlohi (min_le_left hi _), ?_, ?_, ?_⟩
  · intro h
    have hr : hi ≤ round (x * (s : ℚ)) := round_ge_of_le h
    rw [encodeFixed, min_eq_left hr, max_eq_right hlohi]
  · intro h
    have hr : round (x * (s : ℚ)) ≤ lo := round_le_of_ge h
    rw [encodeFixed, min_eq_right (hr.trans hlohi), max_eq_left hr]
  · intro h1 h2
    rw [encodeFixed, min_eq_right h2, max_eq_right h1]

/-- C6 witness: a far out-of-range input is clamped exactly to the upper
boundary of a signed 16-bit field. -/
theorem C6_encode_saturates_witness :
    encodeFixed 256 (-32768) 32767 1000000 = 32767 :=
  (C6_encode_saturates 256 (-32768) 32767 1000000 (by decide)).2.2.1 (by norm_num)

/-- C3: a buffer of full length 16 whose structural checks fail (wrong
header magic or checksum bytes different from the checksum recomputed
over the first fourteen bytes) decodes to the not-populated feedback:
validity false and every numeric field zero; the transaction still
reports success true, and decoding is a total function, so the mismatch
is never surfaced as a thrown failure. -/
theorem C3_invalid_frame (buf : List Nat) (c : MotorCmd) (prev : MotorData)
    (hlen : buf.length = 16) (hid : c.id ≠ broadcastId)
    (hbad : fbChecksOk buf = false) :
    unpackFb buf = zeroData
  ∧ (unpackFb buf).correct = false
  ∧ (unpackFb buf).q = 0 ∧ (unpackFb buf).dq = 0 ∧ (unpackFb buf).tau = 0
  ∧ (unpackFb buf).temp = 0 ∧ (unpackFb buf).merror = 0
  ∧ (unpackFb buf).foot_force = 0
  ∧ sendRecvResult (some buf) c prev = (true, unpackFb buf) := by
  have hu : unpackFb buf = zeroData := by
    simp [unpackFb, hbad]
  refine ⟨hu, ?_, ?_, ?_, ?_, ?_, ?_, ?_, ?_⟩ <;>
    first
    | (rw [hu]; rfl)
    | simp [sendRecvResult, hid, hlen]

/-- C3 witness: a full 16-byte buffer with a valid-looking header but
corrupted trailing checksum bytes decodes to the zeroed, validity-false
feedback. -/
theorem C3_invalid_frame_witness :
    unpackFb ([253, 238] ++ List.replicate 12 0 ++ [99, 99]) = zeroData :=
  (C3_invalid_frame ([253, 238] ++ List.replicate 12 0 ++ [99, 99])
    (probeCmd 0) zeroData (by decide) (by decide) (by decide)).1

/-- C10: every probe command built by the shipped scan program commands
closed-loop FOC mode (code 1, the motor table code for FOC) with zero
position, velocity, torque and position gain but a non-zero velocity
damping gain kd = 0.01, so the scan is not interaction-free. -/
theorem C10_probe_command_fields (id : Nat) :
    (probeCmd id).id = id
  ∧ (probeCmd id).mode = 1
  ∧ queryMotorMode MotorType.GO_M8010_6 MotorMode.FOC =
      Except.ok (probeCmd id).mode
  ∧ (probeCmd id).q = 0 ∧ (probeCmd id).dq = 0 ∧ (probeCmd id).tau = 0
  ∧ (probeCmd id).kp = 0 ∧ (probeCmd id).kd = 1 / 100
  ∧ (probeCmd id).kd ≠ 0 := by
  refine ⟨rfl, rfl, rfl, rfl, rfl, rfl, rfl, rfl, ?_⟩
  norm_num [probeCmd]

lemma crcStepBit_lt (s : Nat) (b : Bool) : crcStepBit s b < 2 ^ 16 := by
  apply Nat.xor_lt_two_pow
  · have h : s % 2 ^ 15 < 2 ^ 15 := Nat.mod_lt _ (by norm_num)
    omega
  · cases h : (s.testBit 15 != b) <;> simp [h, crcPoly]

lemma crcStepBit_false_ne_zero (s : Nat) (h0 : s ≠ 0) (hlt : s < 2 ^ 16) :
    crcStepBit s false ≠ 0 := by
  rw [crcStepBit]
  cases htb : s.testBit 15 with
  | true =>
    intro hcontra
    simp only [htb, bne_iff_ne, ne_eq, Bool.true_eq_false, not_false_eq_true, if_pos] at hcontra
    have hx : (2 * (s % 2 ^ 15) ^^^ crcPoly) % 2 = 1 := by
      rw [Nat.xor_mod_two_eq_one]
      simp [Nat.mul_mod_right, crcPoly]
    rw [hcontra] at hx
    simp at hx
  | false =>
    simp only [bne_self_eq_false, Bool.false_eq_true, if_false, Nat.xor_zero]
    have h15 : s % 2 ^ 15 ≠ 0 := by
      intro hz
      have e : (2 : ℕ) ^ 15 = 32768 := by norm_num
      have e2 : (2 : ℕ) ^ 16 = 65536 := by norm_num
      rw [e] at hz
      rw [e2] at hlt
      have hs : s = 32768 := by omega
      rw [hs] at htb
      exact absurd htb (by decide)
    have e : (2 : ℕ) ^ 15 = 32768 := by norm_num
    rw [e] at h15 ⊢
    omega

lemma mod_two_pow_xor (a b k : Nat) : (a ^^^ b) % 2 ^ k = a % 2 ^ k ^^^ b % 2 ^ k := by
  apply Nat.eq_of_testBit_eq
  intro i
  simp [Nat.testBit_mod_two_pow, Nat.testBit_xor, Bool.and_xor_distrib_left]

lemma two_mul_xor (a b : Nat) : 2 * (a ^^^ b) = 2 * a ^^^ 2 * b := by
  have h : ∀ x : Nat, 2 * x = x <<< 1 := fun x => by
    rw [Nat.shiftLeft_eq, Nat.pow_one, Nat.mul_comm]
  rw [h, h, h]
  apply Nat.eq_of_testBit_eq
  intro i
  simp [Nat.testBit_shiftLeft, Nat.testBit_xor, Bool.and_xor_distrib_left]

lemma mask_xor (p q : Bool) :
    ((if p then crcPoly else 0) ^^^ (if q then crcPoly else 0)) =
      (if (p != q) then crcPoly else 0) := by
  cases p <;> cases q <;> simp

lemma xor_rearrange (a b c d : Nat) : (a ^^^ b) ^^^ (c ^^^ d) = (a ^^^ c) ^^^ (b ^^^ d) := by
  ac_rfl

lemma crcStepBit_xor (s t : Nat) (b c : Bool) :
    crcStepBit s b ^^^ crcStepBit t c = crcStepBit (s ^^^ t) (b != c) := by
  rw [crcStepBit, crcStepBit, crcStepBit, xor_rearrange, mask_xor, mod_two_pow_xor, two_mul_xor]
  congr 1
  rw [Nat.testBit_xor]
  congr 1
  cases hs : s.testBit 15 <;> cases ht : t.testBit 15 <;> cases b <;> cases c <;> rfl

lemma crcRun_replicate_false_ne_zero (n : Nat) :
    ∀ s : Nat, s ≠ 0 → s < 2 ^ 16 → crcRun s (List.replicate n false) ≠ 0 := by
  induction n with
  | zero =>
    intro s h0 _
    simpa [crcRun] using h0
  | succ n ih =>
    intro s h0 hlt
    rw [List.replicate_succ]
    show crcRun (crcStepBit s false) (List.replicate n false) ≠ 0
    exact ih (crcStepBit s false) (crcStepBit_false_ne_zero s h0 hlt) (crcStepBit_lt s false)

lemma crcRun_xor (l : List Bool) :
    ∀ s t : Nat, crcRun s l ^^^ crcRun t l =
      crcRun (s ^^^ t) (List.replicate l.length false) := by
  induction l with
  | nil =>
    intro s t
    rfl
  | cons b l ih =>
    intro s t
    show crcRun (crcStepBit s b) l ^^^ crcRun (crcStepBit t b) l =
      crcRun (s ^^^ t) (List.replicate (l.length + 1) false)
    rw [ih, List.replicate_succ]
    show crcRun (crcStepBit s b ^^^ crcStepBit t b) (List.replicate l.length false) =
      crcRun (crcStepBit (s ^^^ t) false) (List.replicate l.length false)
    rw [crcStepBit_xor]
    simp

lemma crcRun_flip_ne (pre suf : List Bool) (b : Bool) :
    crcRun 0 (pre ++ (!b) :: suf) ≠ crcRun 0 (pre ++ b :: suf) := by
  intro heq
  have h1 : crcRun 0 (pre ++ (!b) :: suf) =
      crcRun (crcStepBit (crcRun 0 pre) (!b)) suf := by
    simp only [crcRun, List.foldl_append, List.foldl_cons]
  have h2 : crcRun 0 (pre ++ b :: suf) =
      crcRun (crcStepBit (crcRun 0 pre) b) suf := by
    simp only [crcRun, List.foldl_append, List.foldl_cons]
  rw [h1, h2] at heq
  have hx : crcRun (crcStepBit (crcRun 0 pre) (!b)) suf ^^^
      crcRun (crcStepBit (crcRun 0 pre) b) suf = 0 := by
    rw [heq, Nat.xor_self]
  have hstep : crcStepBit (crcRun 0 pre) (!b) ^^^ crcStepBit (crcRun 0 pre) b =
      crcPoly := by
    rw [crcStepBit_xor, Nat.xor_self]
    have hb : ((!b) != b) = true := by cases b <;> rfl
    rw [hb]
    rfl
  rw [crcRun_xor, hstep] at hx
  exact crcRun_replicate_false_ne_zero suf.length crcPoly (by decide) (by decide) hx

lemma bytesBits_append (l1 l2 : List Nat) :
    bytesBits (l1 ++ l2) = bytesBits l1 ++ bytesBits l2 := by
  simp [bytesBits]

lemma bytesBits_cons (a : Nat) (l : List Nat) :
    bytesBits (a :: l) = byteBits a ++ bytesBits l := by
  simp [bytesBits]

lemma byteBits_flip (x : Nat) (j : Nat) (hj : j < 8) :
    ∃ p s : List Bool,
      byteBits (x ^^^ 2 ^ j) = p ++ (!(x.testBit j)) :: s
    ∧ byteBits x = p ++ (x.testBit j) :: s
    ∧ p.length = 7 - j ∧ s.length = j := by
  interval_cases j
  · exact ⟨[x.testBit 7, x.testBit 6, x.testBit 5, x.testBit 4, x.testBit 3,
      x.testBit 2, x.testBit 1], [],
      by simp only [byteBits, Nat.testBit_xor, Nat.testBit_two_pow, List.cons_append, List.nil_append]; norm_num, rfl, rfl, rfl⟩
  · exact ⟨[x.testBit 7, x.testBit 6, x.testBit 5, x.testBit 4, x.testBit 3,
      x.testBit 2], [x.testBit 0],
      by simp only [byteBits, Nat.testBit_xor, Nat.testBit_two_pow, List.cons_append, List.nil_append]; norm_num, rfl, rfl, rfl⟩
  · exact ⟨[x.testBit 7, x.testBit 6, x.testBit 5, x.testBit 4, x.testBit 3],
      [x.testBit 1, x.testBit 0],
      by simp only [byteBits, Nat.testBit_xor, Nat.testBit_two_pow, List.cons_append, List.nil_append]; norm_num, rfl, rfl, rfl⟩
  · exact ⟨[x.testBit 7, x.testBit 6, x.testBit 5, x.testBit 4],
      [x.testBit 2, x.testBit 1, x.testBit 0],
      by simp only [byteBits, Nat.testBit_xor, Nat.testBit_two_pow, List.cons_append, List.nil_append]; norm_num, rfl, rfl, rfl⟩
  · exact ⟨[x.testBit 7, x.testBit 6, x.testBit 5],
      [x.testBit 3, x.testBit 2, x.testBit 1, x.testBit 0],
      by simp only [byteBits, Nat.testBit_xor, Nat.testBit_two_pow, List.cons_append, List.nil_append]; norm_num, rfl, rfl, rfl⟩
  · exact ⟨[x.testBit 7, x.testBit 6],
      [x.testBit 4, x.testBit 3, x.testBit 2, x.testBit 1, x.testBit 0],
      by simp only [byteBits, Nat.testBit_xor, Nat.testBit_two_pow, List.cons_append, List.nil_append]; norm_num, rfl, rfl, rfl⟩
  · exact ⟨[x.testBit 7],
      [x.testBit 5, x.testBit 4, x.testBit 3, x.testBit 2, x.testBit 1, x.testBit 0],
      by simp only [byteBits, Nat.testBit_xor, Nat.testBit_two_pow, List.cons_append, List.nil_append]; norm_num, rfl, rfl, rfl⟩
  · exact ⟨[],
      [x.testBit 6, x.testBit 5, x.testBit 4, x.testBit 3, x.testBit 2,
        x.testBit 1, x.testBit 0],
      by simp only [byteBits, Nat.testBit_xor, Nat.testBit_two_pow, List.cons_append, List.nil_append]; norm_num, rfl, rfl, rfl⟩

/-- C8: flipping any single bit (bit j of byte k) inside the CRC-checked
span of a command frame (15 bytes) or feedback frame (14 bytes) changes
the CRC-CCITT checksum recomputed over that span, so no single-bit
corruption passes the checksum comparison.  The proof goes through the
GF(2) linearity of the shift register: the two streams keep states whose
xor evolves from the generator polynomial and can never return to
zero. -/
theorem C8_crc_detects_bit_flip (frame : List Nat) (k j : Nat)
    (hk : k < frame.length) (hj : j < 8)
    (_hlen : frame.length = 15 ∨ frame.length = 14) :
    crc16 (frame.set k (frame.getD k 0 ^^^ 2 ^ j)) ≠ crc16 frame := by
  obtain ⟨p, s, hflip, horig, hp, hs⟩ := byteBits_flip (frame.getD k 0) j hj
  have hg : frame.getD k 0 = frame[k] := by
    simp [List.getD_eq_getElem?_getD, List.getElem?_eq_getElem hk]
  have hsplit : frame = frame.take k ++ frame.getD k 0 :: frame.drop (k + 1) := by
    rw [hg]
    conv_lhs => rw [← List.take_append_drop k frame]
    rw [← List.getElem_cons_drop frame k hk]
  have hsetsplit : frame.set k (frame.getD k 0 ^^^ 2 ^ j) =
      frame.take k ++ (frame.getD k 0 ^^^ 2 ^ j) :: frame.drop (k + 1) := by
    rw [List.set_eq_take_append_cons_drop, if_pos hk]
  have e1 : bytesBits (frame.set k (frame.getD k 0 ^^^ 2 ^ j)) =
      (bytesBits (frame.take k) ++ p) ++
        (!((frame.getD k 0).testBit j)) :: (s ++ bytesBits (frame.drop (k + 1))) := by
    rw [hsetsplit, bytesBits_append, bytesBits_cons, hflip]
    simp [List.append_assoc]
  have e2 : bytesBits frame =
      (bytesBits (frame.take k) ++ p) ++
        ((frame.getD k 0).testBit j) :: (s ++ bytesBits (frame.drop (k + 1))) := by
    conv_lhs => rw [hsplit]
    rw [bytesBits_append, bytesBits_cons, horig]
    simp [List.append_assoc]
  rw [crc16, crc16, e1, e2]
  exact crcRun_flip_ne (bytesBits (frame.take k) ++ p)
    (s ++ bytesBits (frame.drop (k + 1))) ((frame.getD k 0).testBit j)



/-- C8 witness: flipping bit 5 of byte 3 of the all-zero 15-byte span
changes the checksum. -/
theorem C8_crc_detects_bit_flip_witness :
    crc16 ((List.replicate 15 0).set 3 ((List.replicate 15 0).getD 3 0 ^^^ 2 ^ 5)) ≠
      crc16 (List.replicate 15 0) :=
  C8_crc_detects_bit_flip (List.replicate 15 0) 3 5 (by decide) (by decide)
    (Or.inl (by decide))
